import Mathlib

/-!
Verification of `src/offset.c` (mmap-ffi): a one-shot program that prints
fourteen platform constants as a single JSON line on standard output.

The platform (the compiling platform's headers: `struct stat` layout,
`fcntl.h` / `sys/mman.h` constants, the `MAP_FAILED` sentinel pointer) is
external to the repository, so it is modelled as a structure of named
integer fields.  The two propositional fields record facts guaranteed by
the C language and by real platforms: a struct member lies within the
bounds of its struct (`offsetof(s, f) + sizeof(member) <= sizeof(s)`),
and a pointer value fits in 64 bits (the program widens `MAP_FAILED`
with a cast to `long long`).
-/

/-- The compiling platform, as seen through the headers included by
`offset.c`.  Each numeric field is the platform's value for the
corresponding C expression named in the doc string. -/
structure Platform where
  /-- `offsetof(struct stat, st_size)` -/
  st_size_offset : Nat
  /-- `sizeof(struct stat)` -/
  stat_size : Nat
  /-- `sizeof` the `st_size` member of `struct stat` -/
  st_size_size : Nat
  /-- `O_RDONLY` -/
  o_rdonly : Int
  /-- `O_WRONLY` -/
  o_wronly : Int
  /-- `O_RDWR` -/
  o_rdwr : Int
  /-- `PROT_READ` -/
  prot_read : Int
  /-- `PROT_WRITE` -/
  prot_write : Int
  /-- `MADV_NORMAL` -/
  madv_normal : Int
  /-- `MADV_RANDOM` -/
  madv_random : Int
  /-- `MADV_SEQUENTIAL` -/
  madv_sequential : Int
  /-- `MADV_WILLNEED` -/
  madv_willneed : Int
  /-- `MADV_DONTNEED` -/
  madv_dontneed : Int
  /-- the bit pattern of the pointer value `MAP_FAILED` -/
  map_failed_bits : Nat
  /-- `MAP_SHARED` -/
  map_shared : Int
  /-- ISO C guarantee: a struct member lies within its struct's bounds. -/
  h_bounds : st_size_offset + st_size_size ≤ stat_size
  /-- Pointers fit in the 64-bit `long long` the program casts to. -/
  h_ptr : map_failed_bits < 2 ^ 64

/-- The decimal rendering printf performs for the signed conversions
`%d` and `%lld`: digits of the absolute value, preceded by `-` when
negative. -/
def intDec : Int → String
  | Int.ofNat m => Nat.repr m
  | Int.negSucc m => "-" ++ Nat.repr (m + 1)

/-- The C cast `(long long) MAP_FAILED` applied to a pointer bit
pattern: reinterpret the low 64 bits as a two's-complement signed
64-bit value. -/
def toSigned64 (bits : Nat) : Int :=
  if bits % 2 ^ 64 < 2 ^ 63 then ((bits % 2 ^ 64 : Nat) : Int)
  else ((bits % 2 ^ 64 : Nat) : Int) - 2 ^ 64

/-- The value the program passes for the `%lld` conversion on
`src/offset.c` line 22: `(long long) MAP_FAILED`. -/
def mapFailedLL (p : Platform) : Int := toSigned64 p.map_failed_bits

/-- The exact character sequence `offset.c` line 8-24 passes to
`printf`: the format string with each conversion specifier replaced by
the decimal rendering of the corresponding argument (`%zu` and `%lu`
render the unsigned values, `%d` and `%lld` the signed ones). -/
def output (p : Platform) : String :=
  "\x7b\"statOffset\": " ++ Nat.repr p.st_size_offset ++
  ", \"statSize\": " ++ Nat.repr p.stat_size ++
  ", \"O_RDONLY\": " ++ intDec p.o_rdonly ++
  ", \"O_WRONLY\": " ++ intDec p.o_wronly ++
  ", \"O_RDWR\": " ++ intDec p.o_rdwr ++
  ", \"PROT_READ\": " ++ intDec p.prot_read ++
  ", \"PROT_WRITE\": " ++ intDec p.prot_write ++
  ", \"MADV_NORMAL\": " ++ intDec p.madv_normal ++
  ", \"MADV_RANDOM\": " ++ intDec p.madv_random ++
  ", \"MADV_SEQUENTIAL\": " ++ intDec p.madv_sequential ++
  ", \"MADV_WILLNEED\": " ++ intDec p.madv_willneed ++
  ", \"MADV_DONTNEED\": " ++ intDec p.madv_dontneed ++
  ", \"MAP_FAILED\": " ++ intDec (mapFailedLL p) ++
  ", \"MAP_SHARED\": " ++ intDec p.map_shared ++ "\x7d\n"

/-- Result of one process invocation: the bytes the program hands to
standard output, and the exit status. -/
structure ProcResult where
  written : String
  exit : Int

/-- `main` from `src/offset.c` lines 7-25.  `args` is the argument
vector (`argc`/`argv`), which the body never reads.  `printfRet` is the
value the `printf` call returns (the environment's report on the write);
the source discards it, and `main` falls off its end, which in C returns
status 0. -/
def mainC (p : Platform) (args : List String) (printfRet : Int) : ProcResult :=
  ⟨output p, 0⟩

/-- The key/value record the format string encodes: the fourteen labels
of the format string paired with the argument printed after each,
in the order of `offset.c` lines 10-23. -/
def record (p : Platform) : List (String × Int) :=
  [("statOffset", (p.st_size_offset : Int)),
   ("statSize", (p.stat_size : Int)),
   ("O_RDONLY", p.o_rdonly),
   ("O_WRONLY", p.o_wronly),
   ("O_RDWR", p.o_rdwr),
   ("PROT_READ", p.prot_read),
   ("PROT_WRITE", p.prot_write),
   ("MADV_NORMAL", p.madv_normal),
   ("MADV_RANDOM", p.madv_random),
   ("MADV_SEQUENTIAL", p.madv_sequential),
   ("MADV_WILLNEED", p.madv_willneed),
   ("MADV_DONTNEED", p.madv_dontneed),
   ("MAP_FAILED", mapFailedLL p),
   ("MAP_SHARED", p.map_shared)]

/-- The fourteen field names of spec §4.1, in the order they appear in
the format string. -/
def fieldNames : List String :=
  ["statOffset", "statSize", "O_RDONLY", "O_WRONLY", "O_RDWR",
   "PROT_READ", "PROT_WRITE", "MADV_NORMAL", "MADV_RANDOM",
   "MADV_SEQUENTIAL", "MADV_WILLNEED", "MADV_DONTNEED",
   "MAP_FAILED", "MAP_SHARED"]

/-- Spec-side (§4.1/§6): one member of a key/value text record, a
double-quoted key followed by a colon and the rendered value. -/
def jsonMember (k v : String) : String := "\"" ++ k ++ "\": " ++ v

/-- Spec-side: comma-separated juxtaposition of rendered members. -/
def commaSep : List String → String
  | [] => ""
  | [m] => m
  | m :: ms => m ++ ", " ++ commaSep ms

/-- Spec-side: a JSON object: brace-enclosed comma-separated members. -/
def jsonObj (ms : List String) : String := "\x7b" ++ commaSep ms ++ "\x7d"

/-- Spec-side (§6): the serialized form of a key/value record with
decimal integer values, as one newline-terminated line. -/
def renderRecord (fs : List (String × Int)) : String :=
  jsonObj (fs.map fun kv => jsonMember kv.1 (intDec kv.2)) ++ "\n"

/-- Everything `output` produces before its final newline. -/
def outputBody (p : Platform) : String :=
  "\x7b\"statOffset\": " ++ Nat.repr p.st_size_offset ++
  ", \"statSize\": " ++ Nat.repr p.stat_size ++
  ", \"O_RDONLY\": " ++ intDec p.o_rdonly ++
  ", \"O_WRONLY\": " ++ intDec p.o_wronly ++
  ", \"O_RDWR\": " ++ intDec p.o_rdwr ++
  ", \"PROT_READ\": " ++ intDec p.prot_read ++
  ", \"PROT_WRITE\": " ++ intDec p.prot_write ++
  ", \"MADV_NORMAL\": " ++ intDec p.madv_normal ++
  ", \"MADV_RANDOM\": " ++ intDec p.madv_random ++
  ", \"MADV_SEQUENTIAL\": " ++ intDec p.madv_sequential ++
  ", \"MADV_WILLNEED\": " ++ intDec p.madv_willneed ++
  ", \"MADV_DONTNEED\": " ++ intDec p.madv_dontneed ++
  ", \"MAP_FAILED\": " ++ intDec (mapFailedLL p) ++
  ", \"MAP_SHARED\": " ++ intDec p.map_shared ++ "\x7d"

/-- The common POSIX-like platform of spec §8 (Linux x86-64, glibc):
`O_RDONLY` 0, `O_WRONLY` 1, `O_RDWR` 2, `PROT_READ` 1, `PROT_WRITE` 2,
`MAP_SHARED` 1, `MAP_FAILED` the all-ones pointer, `MADV_*` 0-4,
`st_size` an 8-byte member at offset 48 of the 144-byte `struct stat`. -/
def linuxCommon : Platform where
  st_size_offset := 48
  stat_size := 144
  st_size_size := 8
  o_rdonly := 0
  o_wronly := 1
  o_rdwr := 2
  prot_read := 1
  prot_write := 2
  madv_normal := 0
  madv_random := 1
  madv_sequential := 2
  madv_willneed := 3
  madv_dontneed := 4
  map_failed_bits := 2 ^ 64 - 1
  map_shared := 1
  h_bounds := by norm_num
  h_ptr := by norm_num

/-- Spec-side: the body of a JSON integer literal after an optional
minus sign: digits only, either a lone `0` or a nonzero leading digit
(RFC 8259 `int`). -/
def jsonDigits : List Char → Bool
  | [] => false
  | c :: cs => (c == '0' && cs.isEmpty) ||
      (['1', '2', '3', '4', '5', '6', '7', '8', '9'].contains c &&
        cs.all Char.isDigit)

/-- Spec-side: a JSON integer literal over a character list: an
optional minus sign followed by `jsonDigits`. -/
def isJsonIntChars : List Char → Bool
  | [] => false
  | c :: cs => if c = '-' then jsonDigits cs else jsonDigits (c :: cs)

/-- Spec-side: a JSON integer literal. -/
def isJsonInt (s : String) : Bool := isJsonIntChars s.data

set_option maxRecDepth 20000 in
theorem output_split (p : Platform) : output p = outputBody p ++ "\n" := by
  apply String.ext
  simp only [output, outputBody, String.data_append, List.append_assoc]
  rfl

set_option maxRecDepth 20000 in
theorem output_eq_renderRecord (p : Platform) :
    output p = renderRecord (record p) := by
  apply String.ext
  simp only [output, renderRecord, record, jsonObj, jsonMember, commaSep,
    List.map, String.data_append, List.append_assoc]
  rfl

theorem digitChar_isDigit {n : Nat} (h : n < 10) :
    (Nat.digitChar n).isDigit = true := by
  interval_cases n <;> decide

theorem toDigitsCore_isDigit :
    ∀ (fuel n : Nat) (ds : List Char), (∀ c ∈ ds, c.isDigit = true) →
      ∀ c ∈ Nat.toDigitsCore 10 fuel n ds, c.isDigit = true := by
  intro fuel
  induction fuel with
  | zero => intro n ds hds c hc; exact hds c hc
  | succ fuel ih =>
    intro n ds hds c hc
    rw [Nat.toDigitsCore] at hc
    split at hc
    · rcases List.mem_cons.mp hc with rfl | hm
      · exact digitChar_isDigit (Nat.mod_lt _ (by decide))
      · exact hds c hm
    · refine ih (n / 10) (Nat.digitChar (n % 10) :: ds) ?_ c hc
      intro x hx
      rcases List.mem_cons.mp hx with rfl | hm
      · exact digitChar_isDigit (Nat.mod_lt _ (by decide))
      · exact hds x hm

theorem natRepr_isDigit (n : Nat) : ∀ c ∈ (Nat.repr n).data, c.isDigit = true := by
  intro c hc
  have hdata : (Nat.repr n).data = Nat.toDigitsCore 10 (n + 1) n [] := rfl
  rw [hdata] at hc
  exact toDigitsCore_isDigit (n + 1) n []
    (by intro x hx; exact absurd hx (List.not_mem_nil x)) c hc

theorem natRepr_no_newline (n : Nat) : '\n' ∉ (Nat.repr n).data := by
  intro h
  exact absurd (natRepr_isDigit n '\n' h) (by decide)

theorem intDec_no_newline (v : Int) : '\n' ∉ (intDec v).data := by
  cases v with
  | ofNat m => exact natRepr_no_newline m
  | negSucc m =>
    intro h
    have hd : (intDec (Int.negSucc m)).data = '-' :: (Nat.repr (m + 1)).data := rfl
    rw [hd] at h
    rcases List.mem_cons.mp h with he | hm
    · exact absurd he (by decide)
    · exact natRepr_no_newline (m + 1) hm

theorem outputBody_no_newline (p : Platform) : '\n' ∉ (outputBody p).data := by
  intro h
  simp only [outputBody, String.data_append, List.append_assoc,
    List.mem_append] at h
  simp only [natRepr_no_newline, intDec_no_newline, or_false, false_or] at h
  exact absurd h (by decide)

theorem toDigitsCore_lead :
    ∀ (fuel n : Nat) (ds : List Char), 0 < n → n ≤ fuel →
      ∃ c cs, Nat.toDigitsCore 10 fuel n ds = c :: cs ∧
        (['1', '2', '3', '4', '5', '6', '7', '8', '9'].contains c) = true ∧
        ∀ x ∈ cs, x.isDigit = true ∨ x ∈ ds := by
  intro fuel
  induction fuel with
  | zero => intro n ds h1 h2; omega
  | succ fuel ih =>
    intro n ds h1 h2
    rw [Nat.toDigitsCore]
    split
    · next h =>
      have hn : n < 10 := by omega
      refine ⟨Nat.digitChar (n % 10), ds, rfl, ?_, ?_⟩
      · rw [Nat.mod_eq_of_lt hn]
        interval_cases n <;> decide
      · intro x hx; exact Or.inr hx
    · next h =>
      have h1' : 0 < n / 10 := Nat.pos_of_ne_zero h
      have h2' : n / 10 ≤ fuel := by omega
      obtain ⟨c, cs, heq, hc, htail⟩ :=
        ih (n / 10) (Nat.digitChar (n % 10) :: ds) h1' h2'
      refine ⟨c, cs, heq, hc, ?_⟩
      intro x hx
      rcases htail x hx with hd | hm
      · exact Or.inl hd
      · rcases List.mem_cons.mp hm with rfl | hm'
        · exact Or.inl (digitChar_isDigit (Nat.mod_lt _ (by decide)))
        · exact Or.inr hm'

theorem natRepr_lead (n : Nat) (h : 0 < n) :
    ∃ c cs, (Nat.repr n).data = c :: cs ∧
      (['1', '2', '3', '4', '5', '6', '7', '8', '9'].contains c) = true ∧
      ∀ x ∈ cs, x.isDigit = true := by
  obtain ⟨c, cs, heq, hc, htail⟩ := toDigitsCore_lead (n + 1) n [] h (by omega)
  refine ⟨c, cs, heq, hc, ?_⟩
  intro x hx
  rcases htail x hx with hd | hm
  · exact hd
  · exact absurd hm (List.not_mem_nil x)

theorem jsonDigits_natRepr (n : Nat) : jsonDigits (Nat.repr n).data = true := by
  rcases Nat.eq_zero_or_pos n with rfl | h
  · decide
  · obtain ⟨c, cs, heq, hc, hcs⟩ := natRepr_lead n h
    rw [heq]
    simp only [jsonDigits, Bool.or_eq_true, Bool.and_eq_true]
    refine Or.inr ⟨hc, ?_⟩
    rw [List.all_eq_true]
    intro x hx
    exact hcs x hx

theorem isJsonInt_intDec (v : Int) : isJsonInt (intDec v) = true := by
  cases v with
  | ofNat m =>
    show isJsonIntChars (Nat.repr m).data = true
    rcases Nat.eq_zero_or_pos m with rfl | h
    · decide
    · obtain ⟨c, cs, heq, hc, hcs⟩ := natRepr_lead m h
      rw [heq]
      have hne : ¬ (c = '-') := by
        intro he; rw [he] at hc; exact absurd hc (by decide)
      simp only [isJsonIntChars]
      rw [if_neg hne, ← heq]
      exact jsonDigits_natRepr m
  | negSucc m =>
    show isJsonIntChars (intDec (Int.negSucc m)).data = true
    have hd : (intDec (Int.negSucc m)).data = '-' :: (Nat.repr (m + 1)).data := rfl
    rw [hd]
    simp only [isJsonIntChars, if_true]
    exact jsonDigits_natRepr (m + 1)

/-- C1: every invocation writes exactly one line to standard output: a
key/value text record whose fields are exactly the fourteen of §4.1, in
the format-string order, each key a fixed label and each value the
decimal rendering of an integer; nothing else is written, and the single
newline is the line terminator. -/
theorem c1_single_record_line (p : Platform) (args : List String) (r : Int) :
    (mainC p args r).written = renderRecord (record p) ∧
    (record p).map Prod.fst = fieldNames ∧
    ∃ body, (mainC p args r).written = body ++ "\n" ∧ '\n' ∉ body.data :=
  ⟨output_eq_renderRecord p, rfl,
    outputBody p, output_split p, outputBody_no_newline p⟩

/-- C2: the emitted `statOffset` field is exactly the platform's
`offsetof(struct stat, st_size)` and the emitted `statSize` field is
exactly the platform's `sizeof(struct stat)`. -/
theorem c2_stat_layout_fields (p : Platform) :
    (record p).lookup "statOffset" = some ((p.st_size_offset : Int)) ∧
    (record p).lookup "statSize" = some ((p.stat_size : Int)) :=
  ⟨rfl, rfl⟩

/-- C3: the `MAP_FAILED` field is the 64-bit signed (two's-complement)
reinterpretation of the platform sentinel's bit pattern: it lies in the
signed 64-bit range, agrees with the bit pattern modulo 2^64, and on the
all-ones sentinel it is the decimal value -1. -/
theorem c3_map_failed_widened (p : Platform) :
    (record p).lookup "MAP_FAILED" = some (mapFailedLL p) ∧
    mapFailedLL p % (2 ^ 64) = (p.map_failed_bits : Int) ∧
    -(2 ^ 63) ≤ mapFailedLL p ∧ mapFailedLL p < 2 ^ 63 ∧
    (p.map_failed_bits = 2 ^ 64 - 1 → mapFailedLL p = -1) := by
  have hb := p.h_ptr
  have e1 : (2 : Nat) ^ 64 = 18446744073709551616 := by norm_num
  have e2 : (2 : Nat) ^ 63 = 9223372036854775808 := by norm_num
  have e3 : (2 : Int) ^ 64 = 18446744073709551616 := by norm_num
  have e4 : (2 : Int) ^ 63 = 9223372036854775808 := by norm_num
  rw [e1] at hb
  have hm : p.map_failed_bits % 18446744073709551616 = p.map_failed_bits :=
    Nat.mod_eq_of_lt hb
  refine ⟨rfl, ?_, ?_, ?_, ?_⟩
  · simp only [mapFailedLL, toSigned64, e1, e2, e3, hm]
    split <;> omega
  · simp only [mapFailedLL, toSigned64, e1, e2, e3, e4]
    split <;> omega
  · simp only [mapFailedLL, toSigned64, e1, e2, e3, e4]
    split <;> omega
  · intro hbits
    rw [e1] at hbits
    simp only [mapFailedLL, toSigned64, e1, e2, e3, hbits]
    decide

/-- C3 witness: on the common platform, whose sentinel is the all-ones
pointer, the emitted `MAP_FAILED` value is -1. -/
theorem c3_map_failed_widened_witness : mapFailedLL linuxCommon = -1 :=
  (c3_map_failed_widened linuxCommon).2.2.2.2 rfl

/-- C4: command-line arguments are never consumed: two invocations that
differ only in their argument vectors have identical observable
behaviour (same bytes written, same exit status). -/
theorem c4_args_irrelevant (p : Platform) (a a' : List String) (r : Int) :
    mainC p a r = mainC p a' r := rfl

/-- C5: on a fixed platform/build the program is deterministic: any two
invocations produce byte-identical output, namely the platform's fixed
record line. -/
theorem c5_deterministic (p : Platform) (a₁ a₂ : List String) (r₁ r₂ : Int) :
    (mainC p a₁ r₁).written = (mainC p a₂ r₂).written ∧
    (mainC p a₁ r₁).written = output p :=
  ⟨rfl, rfl⟩

/-- C6: no runtime failure path: every invocation terminates normally
with exit status 0, and its only effect is the single write of the
record line to standard output. -/
theorem c6_always_succeeds (p : Platform) (a : List String) (r : Int) :
    mainC p a r = ⟨output p, 0⟩ := rfl

/-- C7: the emitted `statOffset`, plus the byte size of the `st_size`
member, never exceeds the emitted `statSize`: the file-size field lies
within the bounds of the file-status record. -/
theorem c7_offset_in_bounds (p : Platform) :
    ∃ off sz : Int, (record p).lookup "statOffset" = some off ∧
      (record p).lookup "statSize" = some sz ∧
      off + (p.st_size_size : Int) ≤ sz := by
  refine ⟨_, _, rfl, rfl, ?_⟩
  have h := p.h_bounds
  omega

/-- C8: on the common POSIX-like platform the emitted record carries
exactly `O_RDONLY` 0, `O_WRONLY` 1, `O_RDWR` 2, `PROT_READ` 1,
`PROT_WRITE` 2, `MAP_SHARED` 1 and `MAP_FAILED` -1. -/
theorem c8_common_platform_values :
    (record linuxCommon).lookup "O_RDONLY" = some 0 ∧
    (record linuxCommon).lookup "O_WRONLY" = some 1 ∧
    (record linuxCommon).lookup "O_RDWR" = some 2 ∧
    (record linuxCommon).lookup "PROT_READ" = some 1 ∧
    (record linuxCommon).lookup "PROT_WRITE" = some 2 ∧
    (record linuxCommon).lookup "MAP_SHARED" = some 1 ∧
    (record linuxCommon).lookup "MAP_FAILED" = some (-1) := by
  decide

/-- C9: the emitted line parses as a JSON object (double-quoted keys,
comma-separated members, braces), its keys occur in the fixed
format-string order, every value is a JSON integer literal, and exactly
one newline — the trailing one — is emitted. -/
theorem c9_json_object_line (p : Platform) (args : List String) (r : Int) :
    ∃ vals : List String,
      vals.length = fieldNames.length ∧
      (∀ v ∈ vals, isJsonInt v = true) ∧
      (mainC p args r).written =
        jsonObj (List.zipWith jsonMember fieldNames vals) ++ "\n" ∧
      '\n' ∉ (jsonObj (List.zipWith jsonMember fieldNames vals)).data := by
  refine ⟨(record p).map (fun kv => intDec kv.2), rfl, ?_, ?_, ?_⟩
  · intro v hv
    simp only [List.mem_map] at hv
    obtain ⟨kv, _, rfl⟩ := hv
    exact isJsonInt_intDec kv.2
  · exact output_eq_renderRecord p
  · have h1 : outputBody p ++ "\n" =
        jsonObj (List.zipWith jsonMember fieldNames
          ((record p).map (fun kv => intDec kv.2))) ++ "\n" :=
      (output_split p).symm.trans (output_eq_renderRecord p)
    have h2 : outputBody p =
        jsonObj (List.zipWith jsonMember fieldNames
          ((record p).map (fun kv => intDec kv.2))) := by
      apply String.ext
      have h3 := congrArg String.data h1
      simp only [String.data_append] at h3
      exact List.append_cancel_right h3
    rw [← h2]
    exact outputBody_no_newline p

/-- C10: the result of the `printf` call is discarded: whatever value
the write reports — including the failure report -1 — the process exits
with status 0, so the exit code never reflects an output-write
failure. -/
theorem c10_write_result_discarded (p : Platform) (a : List String) (r r' : Int) :
    (mainC p a r).exit = (mainC p a r').exit ∧ (mainC p a (-1)).exit = 0 :=
  ⟨rfl, rfl⟩
